import Mathlib

/-!
Shallow embedding of the `augurx_client` unified-transfer orchestrator.

The source is TypeScript.  External effects (HTTP fetches, on-chain
transactions, the wallet) are modelled by an `Env` record holding the
responses the environment returns for each awaited call, and the
orchestrator is a pure function from `Env` and its options to a trace of
issued effects plus an `Except` outcome.  JS `number` values are modelled
as exact rationals together with the non-finite values; JS `bigint` as `ℤ`.
-/

namespace Augurx

/-! ### Chain registry (src/utils/config.ts) -/

structure ChainConfig where
  name : String
  chainId : Nat
  rpcUrl : String
  usdcAddress : String
  domainId : Nat
deriving DecidableEq

/-- The `chainConfigs` table from config.ts, in declaration (= `Object.keys`) order. -/
def chainConfigsList : List (String × ChainConfig) :=
  [ ("sepolia",
      ⟨"Sepolia", 11155111, "https://rpc.sepolia.org",
        "0x1c7D4B196Cb0C7B01d743Fbc6116a902379C7238", 0⟩),
    ("baseSepolia",
      ⟨"Base Sepolia", 84532, "https://sepolia.base.org",
        "0x036CbD53842c5426634e7929541eC2318f3dCF7e", 6⟩),
    ("avalancheFuji",
      ⟨"Avalanche Fuji", 43113, "https://api.avax-test.network/ext/bc/C/rpc",
        "0x5425890298aed601595a70ab815c96711a31bc65", 1⟩),
    ("arcTestnet",
      ⟨"Arc Testnet", 5042002, "https://rpc.testnet.arc.network",
        "0x3600000000000000000000000000000000000000", 26⟩),
    ("hyperliquidEvmTestnet",
      ⟨"Hyperliquid EVM Testnet", 998, "https://api.hyperliquid-testnet.xyz/evm",
        "0x2B3370eE501B4a559b57D449569354196457D8Ab", 19⟩),
    ("seiTestnet",
      ⟨"Sei Testnet", 713715, "https://evm-rpc-testnet.sei-apis.com",
        "0x4fCF1784B31630811181f670Aea7A7bEF803eaED", 16⟩),
    ("sonicTestnet",
      ⟨"Sonic Testnet", 64165, "https://rpc.testnet.soniclabs.com",
        "0x0BA304580ee7c9a980CF72e55f5Ed2E9fd30Bc51", 13⟩),
    ("worldchainSepolia",
      ⟨"Worldchain Sepolia", 4801, "https://worldchain-sepolia.g.alchemy.com/public",
        "0x66145f38cBAC35Ca6F1Dfb4914dF98F1614aeA88", 14⟩) ]

/-- `Object.keys(chainConfigs)` — the valid chain keys, in declaration order. -/
def validChains : List String := chainConfigsList.map Prod.fst

def ARC_CHAIN : String := "arcTestnet"

/-- `validChains.filter((c) => c !== ARC_CHAIN)` from unified_transfer.ts. -/
def validEvmChains : List String := validChains.filter (fun c => c ≠ ARC_CHAIN)

def GATEWAY_WALLET_ADDRESS : String := "0x0077777d7EBA4688BDeF3E311b846F25870A19B9"

def GATEWAY_MINTER_ADDRESS : String := "0x0022222ABE238Cc2C7Bb1f21003F0a260052475B"

def defaultChainConfig : ChainConfig := ⟨"", 0, "", "", 0⟩

/-- `chainConfigs[key]`.  Total with a default, as the orchestrator only
indexes after validating membership in `validChains`. -/
def getChainConfig (key : String) : ChainConfig :=
  ((chainConfigsList.find? (fun p => p.fst == key)).map Prod.snd).getD defaultChainConfig

/-! ### JS numbers

A JS `number` is modelled as an exact rational or one of the non-finite
values.  (Floating-point rounding of the concrete doubles is outside the
model; the amounts involved are exact in both.) -/

inductive JSNum where
  | nan : JSNum
  | posInf : JSNum
  | negInf : JSNum
  | fin (q : ℚ) : JSNum
deriving DecidableEq

/-- `Number.isFinite`. -/
def JSNum.isFinite : JSNum → Bool
  | .fin _ => true
  | _ => false

/-- The JS comparison `amount <= 0` (false on NaN). -/
def JSNum.leZero : JSNum → Bool
  | .fin q => decide (q ≤ 0)
  | .negInf => true
  | _ => false

/-- The rational carried by a finite JS number (0 on the non-finite values,
which the orchestrator has already rejected when it reads this). -/
def JSNum.toQ : JSNum → ℚ
  | .fin q => q
  | _ => 0

/-- `Math.round`: round to nearest, half toward +∞. -/
def jsMathRound (q : ℚ) : ℤ := ⌊q + 1 / 2⌋

/-- `Math.ceil`. -/
def jsMathCeil (q : ℚ) : ℤ := ⌈q⌉

/-! ### Hex strings and address canonicalization
(`addressToBytes32` in unified_transfer.ts, over `ethers.zeroPadValue`) -/

/-- ASCII lower-casing of one character, as `String.prototype.toLowerCase`
acts on the ASCII range (the only range hex addresses use). -/
def charLower (c : Char) : Char :=
  if 65 ≤ c.toNat ∧ c.toNat ≤ 90 then Char.ofNat (c.toNat + 32) else c

/-- `address.toLowerCase()`. -/
def jsToLower (s : String) : String := ⟨s.data.map charLower⟩

def isHexDigitChar (c : Char) : Bool :=
  (48 ≤ c.toNat && c.toNat ≤ 57) ||
  (97 ≤ c.toNat && c.toNat ≤ 102) ||
  (65 ≤ c.toNat && c.toNat ≤ 70)

/-- Models `ethers.zeroPadValue(value, n)` on a hex-string input: parses a
`0x`-prefixed even-length hex string of at most `n` bytes and re-emits it
(`hexlify` emits lower case) left-padded with zero bytes to exactly `n`
bytes; on any other input ethers throws, modelled by `none`. -/
def zeroPadValue (s : String) (n : Nat) : Option String :=
  match s.data with
  | '0' :: 'x' :: rest =>
    if rest.all isHexDigitChar ∧ rest.length % 2 = 0 ∧ rest.length ≤ 2 * n then
      some ⟨'0' :: 'x' :: (List.replicate (2 * n - rest.length) '0' ++ rest.map charLower)⟩
    else none
  | _ => none

/-- `addressToBytes32` from unified_transfer.ts:
`ethers.zeroPadValue(address.toLowerCase(), 32)`. -/
def addressToBytes32 (address : String) : Option String :=
  zeroPadValue (jsToLower address) 32

/-- A well-formed 20-byte EVM address: `0x` followed by 40 hex digits. -/
def isAddress20 (s : String) : Bool :=
  match s.data with
  | '0' :: 'x' :: rest => rest.length == 40 && rest.all isHexDigitChar
  | _ => false

/-! ### Burn intent data model (unified_transfer.ts) -/

def USDC_DECIMALS : Nat := 6

def MAX_FEE : Nat := 2010000

/-- `ethers.MaxUint256`. -/
def MaxUint256 : Nat := 2 ^ 256 - 1

/-- `ethers.ZeroAddress`. -/
def ZeroAddress : String := "0x0000000000000000000000000000000000000000"

structure TransferSpecData where
  version : Nat
  sourceDomain : Nat
  destinationDomain : Nat
  sourceContract : String
  destinationContract : String
  sourceToken : String
  destinationToken : String
  sourceDepositor : String
  destinationRecipient : String
  sourceSigner : String
  destinationCaller : String
  value : ℤ
  salt : String
  hookData : String
deriving DecidableEq

structure BurnIntentData where
  maxBlockHeight : Nat
  maxFee : Nat
  spec : TransferSpecData
deriving DecidableEq

/-- `createBurnIntent` from unified_transfer.ts.  The random salt is passed
in explicitly (`randomBytes(32)` is an environment input). -/
def createBurnIntent (sourceChain destChain : String) (transferValue : ℤ)
    (depositorAddress : String) (salt : String)
    (recipientAddress : Option String) : BurnIntentData :=
  let sourceConfig := getChainConfig sourceChain
  let destConfig := getChainConfig destChain
  let recipient := recipientAddress.getD depositorAddress
  { maxBlockHeight := MaxUint256
    maxFee := MAX_FEE
    spec :=
      { version := 1
        sourceDomain := sourceConfig.domainId
        destinationDomain := destConfig.domainId
        sourceContract := GATEWAY_WALLET_ADDRESS
        destinationContract := GATEWAY_MINTER_ADDRESS
        sourceToken := sourceConfig.usdcAddress
        destinationToken := destConfig.usdcAddress
        sourceDepositor := depositorAddress
        destinationRecipient := recipient
        sourceSigner := depositorAddress
        destinationCaller := ZeroAddress
        value := transferValue
        salt := salt
        hookData := "0x" } }

/-- One entry of an EIP-712 type schema. -/
structure TypedField where
  name : String
  fieldType : String
deriving DecidableEq

/-- The `TransferSpec` schema constant. -/
def TransferSpecFields : List TypedField :=
  [ ⟨"version", "uint32"⟩,
    ⟨"sourceDomain", "uint32"⟩,
    ⟨"destinationDomain", "uint32"⟩,
    ⟨"sourceContract", "bytes32"⟩,
    ⟨"destinationContract", "bytes32"⟩,
    ⟨"sourceToken", "bytes32"⟩,
    ⟨"destinationToken", "bytes32"⟩,
    ⟨"sourceDepositor", "bytes32"⟩,
    ⟨"destinationRecipient", "bytes32"⟩,
    ⟨"sourceSigner", "bytes32"⟩,
    ⟨"destinationCaller", "bytes32"⟩,
    ⟨"value", "uint256"⟩,
    ⟨"salt", "bytes32"⟩,
    ⟨"hookData", "bytes"⟩ ]

/-- The `BurnIntent` schema constant. -/
def BurnIntentFields : List TypedField :=
  [ ⟨"maxBlockHeight", "uint256"⟩,
    ⟨"maxFee", "uint256"⟩,
    ⟨"spec", "TransferSpec"⟩ ]

structure TypedDomain where
  name : String
  version : String
deriving DecidableEq

/-- `const domain = { name: "GatewayWallet", version: "1" }`. -/
def typedDataDomain : TypedDomain := ⟨"GatewayWallet", "1"⟩

/-- The canonicalization `burnIntentTypedData` applies to the message spec:
every address-shaped field through `addressToBytes32`; `none` models the
throw ethers raises on a malformed address. -/
def canonSpec (spec : TransferSpecData) : Option TransferSpecData := do
  let sourceContract ← addressToBytes32 spec.sourceContract
  let destinationContract ← addressToBytes32 spec.destinationContract
  let sourceToken ← addressToBytes32 spec.sourceToken
  let destinationToken ← addressToBytes32 spec.destinationToken
  let sourceDepositor ← addressToBytes32 spec.sourceDepositor
  let destinationRecipient ← addressToBytes32 spec.destinationRecipient
  let sourceSigner ← addressToBytes32 spec.sourceSigner
  let destinationCaller ← addressToBytes32 spec.destinationCaller
  pure { spec with
          sourceContract := sourceContract
          destinationContract := destinationContract
          sourceToken := sourceToken
          destinationToken := destinationToken
          sourceDepositor := sourceDepositor
          destinationRecipient := destinationRecipient
          sourceSigner := sourceSigner
          destinationCaller := destinationCaller }

structure TypedData where
  typesTransferSpec : List TypedField
  typesBurnIntent : List TypedField
  domain : TypedDomain
  primaryType : String
  message : BurnIntentData
deriving DecidableEq

/-- `burnIntentTypedData` from unified_transfer.ts. -/
def burnIntentTypedData (burnIntent : BurnIntentData) : Option TypedData :=
  (canonSpec burnIntent.spec).map fun spec =>
    { typesTransferSpec := TransferSpecFields
      typesBurnIntent := BurnIntentFields
      domain := typedDataDomain
      primaryType := "BurnIntent"
      message := { burnIntent with spec := spec } }

/-! ### The orchestrator (`unifiedTransfer`, unified_transfer.ts)

External calls are modelled by an `Env` of responses; the run is a pure
function producing the ordered trace of issued effects and an outcome. -/

/-- A JS runtime error value: ethers attaches a `code` tag to some errors. -/
structure JsError where
  code : Option String
  msg : String
deriving DecidableEq

/-- One entry of the `/v1/balances` JSON response (balance already parsed,
as `parseFloat` does in the source). -/
structure DomainBalance where
  domain : Nat
  balance : ℚ
deriving DecidableEq

/-- The typed errors `unifiedTransfer` can throw. -/
inductive TError where
  | invalidChain (chain : String)
  | invalidAmount
  | depositFailed (chain : String) (inner : JsError)
  | gatewayApi (status : Nat) (body : String)
  | missingAttestation
  | invalidAddress
  | insufficientNativeGas (destChain : String)
  | js (e : JsError)
deriving DecidableEq

/-- The message of each thrown `Error`, following the source templates. -/
def errorMessage : TError → String
  | .invalidChain c =>
      "Invalid chain: " ++ c ++ ". Valid EVM chains: " ++
        String.intercalate ", " validEvmChains
  | .invalidAmount => "Amount must be a positive number (USDC)."
  | .depositFailed c e =>
      "Failed to deposit on " ++ c ++ ": " ++ e.msg ++
        ". Please deposit manually: npm run deposit -- " ++ c
  | .gatewayApi status body => "Gateway API error: " ++ toString status ++ " " ++ body
  | .missingAttestation => "Missing attestation or signature in response"
  | .invalidAddress => "invalid BytesLike value"
  | .insufficientNativeGas d =>
      "Insufficient native token on " ++ d ++ " to pay for gas. " ++
        "Your burn/attestation succeeded; you need a small amount of testnet " ++
        "native token on the destination chain to complete the mint."
  | .js e => e.msg

/-- The observable effects `unifiedTransfer` issues, in order. -/
inductive Event where
  | vaultQuery (chains : List String) (title : String)
  | walletLog (source dest : String) (title : String)
  | balanceFetch (domainId : Nat)
  | deposit (chains : List String) (amount : ℤ) (silent : Bool)
  | waitBalance (chain : String) (required : ℚ) (pollIntervalMs timeoutMs : Nat)
  | sign (intent : BurnIntentData)
  | attestFetch
  | mint (attestation operatorSig : String)
deriving DecidableEq

/-- Responses of the environment (one per awaited external call), plus the
process-level inputs (account address, random salt, wallet signature). -/
structure Env where
  account : String
  salt : String
  signature : String
  preVault : Except JsError Unit
  preWallet : Except JsError Unit
  balancesFetch : Except JsError (Option (List DomainBalance))
  depositResult : Except JsError Unit
  waitResult : Except JsError Unit
  attestStatus : Nat
  attestBody : String
  attestAttestation : Option String
  attestSignature : Option String
  mintResult : Except JsError String
  postVault : Except JsError Unit
  postWallet : Except JsError Unit

structure TransferResult where
  trace : List Event
  outcome : Except TError Unit

structure UnifiedTransferOptions where
  isEvmToArc : Bool
  chainToTransfer : String
  amount : JSNum

def sourceChainOf (o : UnifiedTransferOptions) : String :=
  if o.isEvmToArc then o.chainToTransfer else ARC_CHAIN

def destChainOf (o : UnifiedTransferOptions) : String :=
  if o.isEvmToArc then ARC_CHAIN else o.chainToTransfer

/-- `BigInt(Math.round(amount * 10 ** USDC_DECIMALS))`. -/
def transferValueOf (amount : JSNum) : ℤ :=
  jsMathRound (amount.toQ * (10 : ℚ) ^ USDC_DECIMALS)

/-- `Number(ethers.formatUnits(transferValue, USDC_DECIMALS))` — exact in ℚ. -/
def amountFormattedOf (transferValue : ℤ) : ℚ :=
  (transferValue : ℚ) / (10 : ℚ) ^ USDC_DECIMALS

/-- `required = amountFormatted + 0.01` (the fee buffer). -/
def requiredOf (transferValue : ℤ) : ℚ :=
  amountFormattedOf transferValue + 1 / 100

/-- `balanceData?.balances?.find(b => b.domain === id)`, then
`sourceBalance ? parseFloat(sourceBalance.balance) : 0`. -/
def availableOf (balanceData : Option (List DomainBalance)) (domainId : Nat) : ℚ :=
  match balanceData.bind (fun bs => bs.find? (fun b => b.domain == domainId)) with
  | some b => b.balance
  | none => 0

/-- The `catch` around the mint block: an `INSUFFICIENT_FUNDS` code becomes
the distinguished error, everything else is rethrown unchanged. -/
def mintCatch (destChain : String) (e : JsError) : Except TError Unit :=
  if e.code = some "INSUFFICIENT_FUNDS" then
    .error (.insufficientNativeGas destChain)
  else .error (.js e)

/-- The post-mint display steps (inside the `try` block, so their errors
also pass through the mint `catch`). -/
def postMintSteps (env : Env) (sourceChain destChain : String) (ev : List Event) :
    TransferResult :=
  let ev1 := ev ++ [.vaultQuery [sourceChain, destChain] "Vault balances (after transfer)"]
  match env.postVault with
  | .error e => ⟨ev1, mintCatch destChain e⟩
  | .ok _ =>
    let ev2 := ev1 ++ [.walletLog sourceChain destChain "Wallet balances (after transfer)"]
    match env.postWallet with
    | .error e => ⟨ev2, mintCatch destChain e⟩
    | .ok _ => ⟨ev2, .ok ()⟩

/-- Step 4: submit the mint; classify failures through the `catch`. -/
def mintStep (env : Env) (sourceChain destChain : String) (ev : List Event)
    (attestation operatorSig : String) : TransferResult :=
  let ev1 := ev ++ [.mint attestation operatorSig]
  match env.mintResult with
  | .error e => ⟨ev1, mintCatch destChain e⟩
  | .ok _txHash => postMintSteps env sourceChain destChain ev1

/-- Step 3: check the attestation response, then mint. -/
def attestStep (env : Env) (sourceChain destChain : String) (ev : List Event) :
    TransferResult :=
  if 200 ≤ env.attestStatus ∧ env.attestStatus ≤ 299 then
    match env.attestAttestation, env.attestSignature with
    | some attestation, some operatorSig =>
      mintStep env sourceChain destChain ev attestation operatorSig
    | _, _ => ⟨ev, .error .missingAttestation⟩
  else ⟨ev, .error (.gatewayApi env.attestStatus env.attestBody)⟩

/-- Steps 2–4 of `unifiedTransfer` (from "Create and sign burn intent" on),
continuing an already-accumulated trace `ev`.  Building the typed data
throws (`none`) on a malformed address before anything is signed. -/
def unifiedTransferTail (env : Env) (sourceChain destChain : String)
    (transferValue : ℤ) (ev : List Event) : TransferResult :=
  let intent := createBurnIntent sourceChain destChain transferValue env.account env.salt none
  match burnIntentTypedData intent with
  | none => ⟨ev, .error .invalidAddress⟩
  | some _typedData =>
    attestStep env sourceChain destChain (ev ++ [.sign intent, .attestFetch])

/-- `unifiedTransfer` from unified_transfer.ts. -/
def unifiedTransfer (env : Env) (options : UnifiedTransferOptions) : TransferResult :=
  let chainToTransfer := options.chainToTransfer
  let amount := options.amount
  if chainToTransfer ∉ validChains ∨ chainToTransfer = ARC_CHAIN then
    ⟨[], .error (.invalidChain chainToTransfer)⟩
  else if ¬ amount.isFinite ∨ amount.leZero then
    ⟨[], .error .invalidAmount⟩
  else
    let transferValue := transferValueOf amount
    let sourceChain := sourceChainOf options
    let destChain := destChainOf options
    let sourceConfig := getChainConfig sourceChain
    let ev : List Event := [.vaultQuery [sourceChain, destChain] "Vault balances (before transfer)"]
    match env.preVault with
    | .error e => ⟨ev, .error (.js e)⟩
    | .ok _ =>
      let ev := ev ++ [.walletLog sourceChain destChain "Wallet balances (before transfer)"]
      match env.preWallet with
      | .error e => ⟨ev, .error (.js e)⟩
      | .ok _ =>
        let ev := ev ++ [.balanceFetch sourceConfig.domainId]
        match env.balancesFetch with
        | .error e => ⟨ev, .error (.js e)⟩
        | .ok balanceData =>
          let available := availableOf balanceData sourceConfig.domainId
          let required := requiredOf transferValue
          if available < required then
            let depositAmount := jsMathCeil (required * (10 : ℚ) ^ 6)
            let ev := ev ++ [.deposit [sourceChain] depositAmount false]
            match env.depositResult with
            | .error e => ⟨ev, .error (.depositFailed sourceChain e)⟩
            | .ok _ =>
              let ev := ev ++ [.waitBalance sourceChain required 30000 1500000]
              match env.waitResult with
              | .error e => ⟨ev, .error (.depositFailed sourceChain e)⟩
              | .ok _ => unifiedTransferTail env sourceChain destChain transferValue ev
          else unifiedTransferTail env sourceChain destChain transferValue ev

/-! ### Vault balances and the balance waiter (src/utils/vault_balances.ts) -/

/-- One entry of the raw `/v1/balances` JSON: `balance` may be absent
(`b.balance ?? "0"`), and is carried already parsed. -/
structure RawBalance where
  domain : Nat
  balance : Option ℚ
deriving DecidableEq

/-- One HTTP response of the balances endpoint: its status and the
`result.balances` field (`none` models "not an array"/missing). -/
structure VaultResp where
  status : Nat
  balances : Option (List RawBalance)
deriving DecidableEq

structure VaultEntry where
  chain : String
  balance : ℚ
deriving DecidableEq

/-- `new Map(domainEntries.map(({chainKey, domainId}) => [domainId, chainKey]))`
lookup (on duplicate keys a JS `Map` keeps the last binding). -/
def domainToChainLookup (domainEntries : List (String × Nat)) (d : Nat) : Option String :=
  (domainEntries.reverse.find? (fun p => p.snd == d)).map Prod.fst

/-- `getVaultBalances({chains, silent: true})` from vault_balances.ts: maps
each returned per-domain balance back to a chain key, labelling unmapped
domains `"Domain N"`; throws on a non-ok response or a missing array. -/
def getVaultBalancesEntries (chains : List String) (resp : VaultResp) :
    Except JsError (List VaultEntry) :=
  if 200 ≤ resp.status ∧ resp.status ≤ 299 then
    match resp.balances with
    | none => .error ⟨none, "API did not return a balances array"⟩
    | some bs =>
      let domainEntries := chains.map (fun key => (key, (getChainConfig key).domainId))
      .ok (bs.map (fun b =>
        { chain := (domainToChainLookup domainEntries b.domain).getD
            ("Domain " ++ toString b.domain)
          balance := b.balance.getD 0 }))
  else .error ⟨none, "Gateway API " ++ toString resp.status⟩

/-- One poll of `waitForGatewayBalance`:
`entries.find(e => e.chain === chain)?.balance ?? 0`. -/
def observeBalance (chain : String) (resp : VaultResp) : Except JsError ℚ :=
  (getVaultBalancesEntries [chain] resp).map fun entries =>
    ((entries.find? (fun e => e.chain == chain)).map VaultEntry.balance).getD 0

inductive WaitErr where
  | api (e : JsError)
  | timeout (lastBalance : ℚ) (elapsedMs : Nat)
deriving DecidableEq

/-- The polling loop of `waitForGatewayBalance`.  Poll `k` happens at
elapsed time `k * pollIntervalMs`; the balance check precedes the timeout
check, as in the source.  `fuel` only bounds the recursion: whenever
`fuel * pollIntervalMs + k * pollIntervalMs ≥ timeoutMs` the fuel-exhausted
branch coincides with the timeout throw of the loop itself, so the wrapper below is
exact for every positive poll interval. -/
def waitLoop (resps : Nat → VaultResp) (chain : String) (required : ℚ)
    (pollIntervalMs timeoutMs : Nat) : Nat → Nat → Except WaitErr Nat
  | 0, k =>
    match observeBalance chain (resps k) with
    | .error e => .error (.api e)
    | .ok balance =>
      if required ≤ balance then .ok k
      else .error (.timeout balance (k * pollIntervalMs))
  | fuel + 1, k =>
    match observeBalance chain (resps k) with
    | .error e => .error (.api e)
    | .ok balance =>
      if required ≤ balance then .ok k
      else if timeoutMs ≤ k * pollIntervalMs then
        .error (.timeout balance (k * pollIntervalMs))
      else waitLoop resps chain required pollIntervalMs timeoutMs fuel (k + 1)

/-- `waitForGatewayBalance(chain, requiredBalance, {pollIntervalMs, timeoutMs})`
from vault_balances.ts.  Returns the index of the succeeding poll (the
source returns `void`; the index is the observable "which poll returned"). -/
def waitForGatewayBalance (resps : Nat → VaultResp) (chain : String) (required : ℚ)
    (pollIntervalMs timeoutMs : Nat) : Except WaitErr Nat :=
  waitLoop resps chain required pollIntervalMs timeoutMs (timeoutMs / pollIntervalMs + 1) 0

/-! ### Character-level lemmas for address canonicalization -/

lemma char_toNat_ofNat_of_lt {n : Nat} (h : n < 55296) : (Char.ofNat n).toNat = n := by
  have hv : n.isValidChar := Or.inl h
  unfold Char.ofNat
  rw [dif_pos hv]
  rfl

lemma charLower_toNat (c : Char) :
    (charLower c).toNat = if 65 ≤ c.toNat ∧ c.toNat ≤ 90 then c.toNat + 32 else c.toNat := by
  unfold charLower
  split
  · next h => exact char_toNat_ofNat_of_lt (by omega)
  · rfl

lemma charLower_eq_self_of_not_upper {c : Char}
    (h : ¬ (65 ≤ c.toNat ∧ c.toNat ≤ 90)) : charLower c = c := by
  unfold charLower
  exact if_neg h

lemma charLower_not_upper (c : Char) :
    ¬ (65 ≤ (charLower c).toNat ∧ (charLower c).toNat ≤ 90) := by
  rw [charLower_toNat]
  split <;> omega

lemma charLower_idem (c : Char) : charLower (charLower c) = charLower c :=
  charLower_eq_self_of_not_upper (charLower_not_upper c)

lemma isHexDigitChar_charLower {c : Char} (h : isHexDigitChar c = true) :
    isHexDigitChar (charLower c) = true := by
  simp only [isHexDigitChar, Bool.or_eq_true, Bool.and_eq_true, decide_eq_true_eq] at h ⊢
  rw [charLower_toNat]
  split <;> omega

lemma isHexDigitChar_zero : isHexDigitChar '0' = true := by decide

lemma charLower_zero : charLower '0' = '0' := by decide

lemma map_charLower_idem (l : List Char) :
    (l.map charLower).map charLower = l.map charLower := by
  have h : charLower ∘ charLower = charLower := funext charLower_idem
  rw [List.map_map, h]

lemma all_hex_map_charLower {l : List Char} (h : l.all isHexDigitChar = true) :
    (l.map charLower).all isHexDigitChar = true := by
  simp only [List.all_eq_true, List.mem_map] at h ⊢
  rintro c ⟨a, ha, rfl⟩
  exact isHexDigitChar_charLower (h a ha)

lemma all_hex_replicate_zero (n : Nat) :
    (List.replicate n '0').all isHexDigitChar = true := by
  simp only [List.all_eq_true, List.mem_replicate]
  rintro c ⟨-, rfl⟩
  exact isHexDigitChar_zero

lemma map_charLower_replicate_zero (n : Nat) :
    (List.replicate n '0').map charLower = List.replicate n '0' := by
  rw [List.map_replicate, charLower_zero]

/-- Evaluation of `addressToBytes32` on a hex tail all of whose digits are
already known to be hex: it lower-cases and left-pads to 32 bytes. -/
lemma addressToBytes32_eval {rest : List Char} (s : String)
    (hs : s.data = '0' :: 'x' :: rest)
    (hhex : rest.all isHexDigitChar = true)
    (heven : rest.length % 2 = 0) (hlen : rest.length ≤ 64) :
    addressToBytes32 s =
      some ⟨'0' :: 'x' :: (List.replicate (64 - rest.length) '0' ++ rest.map charLower)⟩ := by
  unfold addressToBytes32 zeroPadValue jsToLower
  rw [hs]
  have h0 : charLower '0' = '0' := charLower_zero
  have hx : charLower 'x' = 'x' := by decide
  simp only [List.map_cons, h0, hx]
  rw [if_pos ?_]
  · rw [map_charLower_idem, List.length_map]
  · refine ⟨?_, ?_, ?_⟩
    · simpa using all_hex_map_charLower hhex
    · simpa using heven
    · simpa using hlen

lemma map_charLower_pad (rest : List Char) :
    (List.replicate 24 '0' ++ rest.map charLower).map charLower =
      List.replicate 24 '0' ++ rest.map charLower := by
  rw [List.map_append, map_charLower_replicate_zero, map_charLower_idem]

/-- Claim C8: for every 20-byte address input, `addressToBytes32` produces the
32-byte (66 hex characters with the `0x` prefix) value obtained by
left-zero-padding the lower-cased address; the output is its own lower-case
form, and feeding the produced hex string back through `addressToBytes32`
yields the same 32-byte value (idempotence). -/
theorem addressToBytes32_canonical_idempotent (s : String) (h : isAddress20 s = true) :
    ∃ rest : List Char, s.data = '0' :: 'x' :: rest ∧ rest.length = 40 ∧
      addressToBytes32 s =
        some ⟨'0' :: 'x' :: (List.replicate 24 '0' ++ rest.map charLower)⟩ ∧
      (('0' : Char) :: 'x' :: (List.replicate 24 '0' ++ rest.map charLower)).length = 66 ∧
      jsToLower ⟨'0' :: 'x' :: (List.replicate 24 '0' ++ rest.map charLower)⟩ =
        ⟨'0' :: 'x' :: (List.replicate 24 '0' ++ rest.map charLower)⟩ ∧
      addressToBytes32 ⟨'0' :: 'x' :: (List.replicate 24 '0' ++ rest.map charLower)⟩ =
        some ⟨'0' :: 'x' :: (List.replicate 24 '0' ++ rest.map charLower)⟩ := by
  unfold isAddress20 at h
  split at h
  case h_2 => simp at h
  case h_1 rest heq =>
    simp only [Bool.and_eq_true, beq_iff_eq] at h
    obtain ⟨hl, hhex⟩ := h
    have hpadhex : (List.replicate 24 '0' ++ rest.map charLower).all isHexDigitChar = true := by
      rw [List.all_append, all_hex_replicate_zero 24, all_hex_map_charLower hhex]
      rfl
    have hpadlen : (List.replicate 24 '0' ++ rest.map charLower).length = 64 := by
      simp [hl]
    refine ⟨rest, heq, hl, ?_, ?_, ?_, ?_⟩
    · have := addressToBytes32_eval s heq hhex (by omega) (by omega)
      rwa [hl] at this
    · simp [hl]
    · unfold jsToLower
      simp only [List.map_cons, charLower_zero, map_charLower_pad]
      have hx : charLower 'x' = 'x' := by decide
      rw [hx]
    · have h2 := addressToBytes32_eval
        (⟨'0' :: 'x' :: (List.replicate 24 '0' ++ rest.map charLower)⟩ : String)
        rfl hpadhex (by rw [hpadlen]) (by simp [hl])
      rw [hpadlen, show (64 : Nat) - 64 = 0 from rfl, List.replicate_zero, List.nil_append,
        map_charLower_pad] at h2
      exact h2

/-- Witness for C8 at the gateway wallet address constant: its canonical
form is the 66-character lower-cased left-zero-padded value, and applying
`addressToBytes32` to that value returns it unchanged. -/
theorem addressToBytes32_canonical_idempotent_witness :
    isAddress20 GATEWAY_WALLET_ADDRESS = true ∧
    addressToBytes32 GATEWAY_WALLET_ADDRESS =
      some "0x0000000000000000000000000077777d7eba4688bdef3e311b846f25870a19b9" ∧
    ("0x0000000000000000000000000077777d7eba4688bdef3e311b846f25870a19b9" : String).data.length = 66 ∧
    jsToLower "0x0000000000000000000000000077777d7eba4688bdef3e311b846f25870a19b9" =
      "0x0000000000000000000000000077777d7eba4688bdef3e311b846f25870a19b9" ∧
    addressToBytes32 "0x0000000000000000000000000077777d7eba4688bdef3e311b846f25870a19b9" =
      some "0x0000000000000000000000000077777d7eba4688bdef3e311b846f25870a19b9" := by
  obtain ⟨rest, h1, hl, h3, h4, h5, h6⟩ :=
    addressToBytes32_canonical_idempotent GATEWAY_WALLET_ADDRESS (by decide)
  have hrest : rest = GATEWAY_WALLET_ADDRESS.data.drop 2 := by
    rw [h1]
    rfl
  subst hrest
  have hstr : ("0x0000000000000000000000000077777d7eba4688bdef3e311b846f25870a19b9" : String) =
      ⟨'0' :: 'x' :: (List.replicate 24 '0' ++
        (GATEWAY_WALLET_ADDRESS.data.drop 2).map charLower)⟩ := by
    decide
  refine ⟨by decide, ?_, by decide, ?_, ?_⟩
  · rw [h3, hstr]
  · rw [hstr, h5]
  · rw [hstr, h6]

/-! ### Example inputs shared by the concrete instantiations -/

def exampleAccount : String := "0xAbCdEf0123456789abCDef0123456789ABcDEF01"

def exampleSalt : String :=
  "0x1111111111111111111111111111111111111111111111111111111111111111"

def exampleIntent : BurnIntentData :=
  createBurnIntent "baseSepolia" "arcTestnet" 1000000 exampleAccount exampleSalt none

def exampleTypedData : TypedData :=
  (burnIntentTypedData exampleIntent).getD ⟨[], [], ⟨"", ""⟩, "", exampleIntent⟩

/-- Claim C9: every burn intent built by the intent builder of the orchestrator has the
zero address as `destinationCaller`, empty `hookData`, `maxBlockHeight`
equal to `MaxUint256` (effectively unbounded), `maxFee` equal to the fixed
ceiling constant 2010000, and its typed-data payload signs under the domain
`{name: "GatewayWallet", version: "1"}` with the 14-field `TransferSpec`
schema and 3-field `BurnIntent` schema in the fixed order. -/
theorem burn_intent_fixed_fields (src dst : String) (v : ℤ) (acct salt : String)
    (td : TypedData)
    (htd : burnIntentTypedData (createBurnIntent src dst v acct salt none) = some td) :
    (createBurnIntent src dst v acct salt none).spec.destinationCaller = ZeroAddress ∧
    ZeroAddress = "0x0000000000000000000000000000000000000000" ∧
    (createBurnIntent src dst v acct salt none).spec.hookData = "0x" ∧
    (createBurnIntent src dst v acct salt none).maxBlockHeight = 2 ^ 256 - 1 ∧
    (createBurnIntent src dst v acct salt none).maxFee = MAX_FEE ∧
    MAX_FEE = 2010000 ∧
    td.domain = { name := "GatewayWallet", version := "1" } ∧
    td.primaryType = "BurnIntent" ∧
    td.typesTransferSpec.map TypedField.name =
      ["version", "sourceDomain", "destinationDomain", "sourceContract",
        "destinationContract", "sourceToken", "destinationToken", "sourceDepositor",
        "destinationRecipient", "sourceSigner", "destinationCaller", "value", "salt",
        "hookData"] ∧
    td.typesBurnIntent.map TypedField.name = ["maxBlockHeight", "maxFee", "spec"] := by
  unfold burnIntentTypedData at htd
  cases hc : canonSpec (createBurnIntent src dst v acct salt none).spec with
  | none => rw [hc] at htd; simp at htd
  | some sp =>
    rw [hc] at htd
    simp only [Option.map] at htd
    injection htd with htd
    subst htd
    exact ⟨rfl, rfl, rfl, rfl, rfl, rfl, rfl, rfl, rfl, rfl⟩

/-- Witness for C9 at a concrete intent. -/
theorem burn_intent_fixed_fields_witness :
    burnIntentTypedData exampleIntent = some exampleTypedData ∧
    (exampleIntent.spec.destinationCaller = ZeroAddress ∧
      ZeroAddress = "0x0000000000000000000000000000000000000000" ∧
      exampleIntent.spec.hookData = "0x" ∧
      exampleIntent.maxBlockHeight = 2 ^ 256 - 1 ∧
      exampleIntent.maxFee = MAX_FEE ∧
      MAX_FEE = 2010000 ∧
      exampleTypedData.domain = { name := "GatewayWallet", version := "1" } ∧
      exampleTypedData.primaryType = "BurnIntent" ∧
      exampleTypedData.typesTransferSpec.map TypedField.name =
        ["version", "sourceDomain", "destinationDomain", "sourceContract",
          "destinationContract", "sourceToken", "destinationToken", "sourceDepositor",
          "destinationRecipient", "sourceSigner", "destinationCaller", "value", "salt",
          "hookData"] ∧
      exampleTypedData.typesBurnIntent.map TypedField.name =
        ["maxBlockHeight", "maxFee", "spec"]) :=
  ⟨rfl, burn_intent_fixed_fields "baseSepolia" "arcTestnet" 1000000 exampleAccount
    exampleSalt exampleTypedData rfl⟩

/-! ### C2: validation happens before any effect -/

/-- Claim C2: for every environment, when the chain to transfer is not a
known chain key, or is the Arc ledger itself, or the amount is non-finite
or non-positive, `unifiedTransfer` throws a validation error and its trace
is empty — no balance query, deposit, wait, signature, attestation request
or mint is ever issued. -/
theorem validation_rejects_before_any_effect (env : Env) (o : UnifiedTransferOptions)
    (h : o.chainToTransfer ∉ validChains ∨ o.chainToTransfer = ARC_CHAIN ∨
      o.amount.isFinite = false ∨ o.amount.leZero = true) :
    (unifiedTransfer env o).trace = [] ∧
      ((unifiedTransfer env o).outcome = .error (.invalidChain o.chainToTransfer) ∨
        (unifiedTransfer env o).outcome = .error .invalidAmount) := by
  unfold unifiedTransfer
  by_cases h1 : o.chainToTransfer ∉ validChains ∨ o.chainToTransfer = ARC_CHAIN
  · rw [if_pos h1]
    exact ⟨rfl, Or.inl rfl⟩
  · have h2 : ¬ o.amount.isFinite ∨ o.amount.leZero := by
      rcases h with h | h | h | h
      · exact absurd (Or.inl h) h1
      · exact absurd (Or.inr h) h1
      · exact Or.inl (by simp [h])
      · exact Or.inr h
    rw [if_neg h1, if_pos h2]
    exact ⟨rfl, Or.inr rfl⟩

/-- A fully successful environment, used to instantiate the theorems. -/
def exampleEnv : Env :=
  { account := exampleAccount, salt := exampleSalt, signature := "0xsig"
    preVault := .ok (), preWallet := .ok ()
    balancesFetch := .ok (some [⟨6, 2⟩])
    depositResult := .ok (), waitResult := .ok (), attestStatus := 200
    attestBody := "", attestAttestation := some "0xatt"
    attestSignature := some "0xopsig", mintResult := .ok "0xhash"
    postVault := .ok (), postWallet := .ok () }

/-- Witness for C2: the Arc ledger passed as the chain to transfer. -/
theorem validation_rejects_witness :
    (unifiedTransfer exampleEnv ⟨true, "arcTestnet", .fin 1⟩).trace = [] ∧
      ((unifiedTransfer exampleEnv ⟨true, "arcTestnet", .fin 1⟩).outcome =
          .error (.invalidChain "arcTestnet") ∨
        (unifiedTransfer exampleEnv ⟨true, "arcTestnet", .fin 1⟩).outcome =
          .error .invalidAmount) :=
  validation_rejects_before_any_effect _ _ (Or.inr (Or.inl rfl))

/-! ### Structural lemmas about the tail of the orchestrator -/

/-- Any event in the trace of `postMintSteps` is from the prefix or a display step. -/
lemma postMintSteps_mem (env : Env) (s d : String) (ev : List Event) (x : Event)
    (hx : x ∈ (postMintSteps env s d ev).trace) :
    x ∈ ev ∨ x = .vaultQuery [s, d] "Vault balances (after transfer)" ∨
      x = .walletLog s d "Wallet balances (after transfer)" := by
  unfold postMintSteps at hx
  split at hx <;>
    [skip; split at hx] <;>
    simp only [List.mem_append, List.mem_singleton] at hx <;> tauto

/-- Any event in the trace of `mintStep` is from the prefix, the mint submission
itself, or a post-mint display step. -/
lemma mintStep_mem (env : Env) (s d : String) (ev : List Event) (a b : String) (x : Event)
    (hx : x ∈ (mintStep env s d ev a b).trace) :
    x ∈ ev ∨ x = .mint a b ∨
      x = .vaultQuery [s, d] "Vault balances (after transfer)" ∨
      x = .walletLog s d "Wallet balances (after transfer)" := by
  unfold mintStep at hx
  split at hx
  · simp only [List.mem_append, List.mem_singleton] at hx
    tauto
  · rcases postMintSteps_mem env s d _ x hx with h | h | h
    · simp only [List.mem_append, List.mem_singleton] at h
      tauto
    · tauto
    · tauto

/-- Any event in the trace of `attestStep` is from the prefix or a later effect;
a mint event can only carry the attestation and signature of a 2xx response
that contained both. -/
lemma attestStep_mem (env : Env) (s d : String) (ev : List Event) (x : Event)
    (hx : x ∈ (attestStep env s d ev).trace) :
    x ∈ ev ∨
      ((200 ≤ env.attestStatus ∧ env.attestStatus ≤ 299) ∧
        ∃ a b, env.attestAttestation = some a ∧ env.attestSignature = some b ∧
          (x = .mint a b ∨
            x = .vaultQuery [s, d] "Vault balances (after transfer)" ∨
            x = .walletLog s d "Wallet balances (after transfer)")) := by
  unfold attestStep at hx
  split at hx
  · next hst =>
    split at hx
    · next _o1 _o2 att opSig ha hb =>
      rcases mintStep_mem env s d ev att opSig x hx with h | h
      · exact Or.inl h
      · exact Or.inr ⟨hst, att, opSig, ha, hb, h⟩
    · exact Or.inl hx
  · exact Or.inl hx

/-- Any event in the trace of the tail is from the prefix or one of the
own effects of the tail (signature, attestation request, mint, post-mint displays). -/
lemma tail_mem (env : Env) (s d : String) (v : ℤ) (ev : List Event) (x : Event)
    (hx : x ∈ (unifiedTransferTail env s d v ev).trace) :
    x ∈ ev ∨ x = .sign (createBurnIntent s d v env.account env.salt none) ∨
      x = .attestFetch ∨
      (∃ a b, env.attestAttestation = some a ∧ env.attestSignature = some b ∧
        (x = .mint a b ∨
          x = .vaultQuery [s, d] "Vault balances (after transfer)" ∨
          x = .walletLog s d "Wallet balances (after transfer)")) := by
  simp only [unifiedTransferTail] at hx
  split at hx
  · exact Or.inl hx
  · rcases attestStep_mem env s d _ x hx with h | h
    · simp only [List.mem_append, List.mem_cons, List.mem_singleton,
        List.not_mem_nil, or_false] at h
      tauto
    · obtain ⟨_, a, b, ha, hb, hor⟩ := h
      exact Or.inr (Or.inr (Or.inr ⟨a, b, ha, hb, hor⟩))

lemma attestStep_reject_status (env : Env) (s d : String) (ev : List Event)
    (h : ¬ (200 ≤ env.attestStatus ∧ env.attestStatus ≤ 299)) :
    attestStep env s d ev = ⟨ev, .error (.gatewayApi env.attestStatus env.attestBody)⟩ := by
  unfold attestStep
  rw [if_neg h]

lemma attestStep_missing (env : Env) (s d : String) (ev : List Event)
    (hst : 200 ≤ env.attestStatus ∧ env.attestStatus ≤ 299)
    (h : env.attestAttestation = none ∨ env.attestSignature = none) :
    attestStep env s d ev = ⟨ev, .error .missingAttestation⟩ := by
  unfold attestStep
  rw [if_pos hst]
  rcases h with h | h
  · rw [h]
  · rw [h]
    cases env.attestAttestation <;> rfl

lemma attestStep_success_eq (env : Env) (s d : String) (ev : List Event) (a b : String)
    (hst : 200 ≤ env.attestStatus ∧ env.attestStatus ≤ 299)
    (ha : env.attestAttestation = some a) (hb : env.attestSignature = some b) :
    attestStep env s d ev = mintStep env s d ev a b := by
  unfold attestStep
  rw [if_pos hst, ha, hb]

lemma mintStep_fail (env : Env) (s d : String) (ev : List Event) (a b : String)
    (e : JsError) (hm : env.mintResult = .error e) :
    mintStep env s d ev a b = ⟨ev ++ [.mint a b], mintCatch d e⟩ := by
  unfold mintStep
  rw [hm]

lemma mintStep_ok (env : Env) (s d : String) (ev : List Event) (a b h' : String)
    (hm : env.mintResult = .ok h') :
    mintStep env s d ev a b = postMintSteps env s d (ev ++ [.mint a b]) := by
  unfold mintStep
  rw [hm]

lemma postMintSteps_success (env : Env) (s d : String) (ev : List Event)
    (hpoV : env.postVault = .ok ()) (hpoW : env.postWallet = .ok ()) :
    postMintSteps env s d ev =
      ⟨ev ++ [.vaultQuery [s, d] "Vault balances (after transfer)",
        .walletLog s d "Wallet balances (after transfer)"], .ok ()⟩ := by
  unfold postMintSteps
  rw [hpoV, hpoW]
  simp

lemma tail_typedData_none (env : Env) (s d : String) (v : ℤ) (ev : List Event)
    (htd : burnIntentTypedData (createBurnIntent s d v env.account env.salt none) = none) :
    unifiedTransferTail env s d v ev = ⟨ev, .error .invalidAddress⟩ := by
  simp only [unifiedTransferTail]
  rw [htd]

lemma tail_typedData_some (env : Env) (s d : String) (v : ℤ) (ev : List Event)
    (td : TypedData)
    (htd : burnIntentTypedData (createBurnIntent s d v env.account env.salt none) = some td) :
    unifiedTransferTail env s d v ev =
      attestStep env s d
        (ev ++ [.sign (createBurnIntent s d v env.account env.salt none), .attestFetch]) := by
  simp only [unifiedTransferTail]
  rw [htd]

lemma addressToBytes32_some_of_isAddress20 (s : String) (h : isAddress20 s = true) :
    ∃ out, addressToBytes32 s = some out := by
  unfold isAddress20 at h
  split at h
  case h_2 => simp at h
  case h_1 rest heq =>
    simp only [Bool.and_eq_true, beq_iff_eq] at h
    obtain ⟨hl, hhex⟩ := h
    exact ⟨_, addressToBytes32_eval s heq hhex (by omega) (by omega)⟩

/-- For chains of the registry and a well-formed depositor address, building
the typed data never throws. -/
lemma burnIntentTypedData_isSome (src dst : String)
    (hsrc : src ∈ validChains) (hdst : dst ∈ validChains) (v : ℤ) (acct salt : String)
    (hacct : isAddress20 acct = true) :
    ∃ td, burnIntentTypedData (createBurnIntent src dst v acct salt none) = some td := by
  have husdc : ∀ k ∈ validChains, isAddress20 (getChainConfig k).usdcAddress = true := by
    decide
  obtain ⟨w1, h1⟩ := addressToBytes32_some_of_isAddress20 GATEWAY_WALLET_ADDRESS (by decide)
  obtain ⟨w2, h2⟩ := addressToBytes32_some_of_isAddress20 GATEWAY_MINTER_ADDRESS (by decide)
  obtain ⟨w3, h3⟩ :=
    addressToBytes32_some_of_isAddress20 (getChainConfig src).usdcAddress (husdc src hsrc)
  obtain ⟨w4, h4⟩ :=
    addressToBytes32_some_of_isAddress20 (getChainConfig dst).usdcAddress (husdc dst hdst)
  obtain ⟨w5, h5⟩ := addressToBytes32_some_of_isAddress20 acct hacct
  obtain ⟨w8, h8⟩ := addressToBytes32_some_of_isAddress20 ZeroAddress (by decide)
  have hsome : (burnIntentTypedData (createBurnIntent src dst v acct salt none)).isSome = true := by
    simp only [burnIntentTypedData, canonSpec, createBurnIntent, Option.getD,
      h1, h2, h3, h4, h5, h8, Option.some_bind]
    rfl
  exact Option.isSome_iff_exists.mp hsome

/-! ### Effect-kind predicates -/

def isSignEvent : Event → Bool
  | .sign _ => true
  | _ => false

def isAttestEvent : Event → Bool
  | .attestFetch => true
  | _ => false

def isMintEvent : Event → Bool
  | .mint _ _ => true
  | _ => false

/-! ### Path lemmas for `unifiedTransfer` after validation -/

lemma unifiedTransfer_not_validation_error (o : UnifiedTransferOptions)
    (hchain : o.chainToTransfer ∈ validChains) (harc : o.chainToTransfer ≠ ARC_CHAIN)
    (q : ℚ) (hq : o.amount = .fin q) (hqpos : 0 < q) :
    ¬ (o.chainToTransfer ∉ validChains ∨ o.chainToTransfer = ARC_CHAIN) ∧
      ¬ (¬ (o.amount.isFinite = true) ∨ o.amount.leZero = true) := by
  constructor
  · rintro (h | h)
    · exact h hchain
    · exact harc h
  · rintro (h | h)
    · exact h (by rw [hq]; rfl)
    · rw [hq] at h
      simp only [JSNum.leZero, decide_eq_true_eq] at h
      exact absurd h (not_le.mpr hqpos)

/-- With a sufficient vault balance the run goes straight from the balance
check to the tail, with exactly the three display/query events in front. -/
lemma unifiedTransfer_sufficient (env : Env) (o : UnifiedTransferOptions)
    (hchain : o.chainToTransfer ∈ validChains) (harc : o.chainToTransfer ≠ ARC_CHAIN)
    (q : ℚ) (hq : o.amount = .fin q) (hqpos : 0 < q)
    (hpv : env.preVault = .ok ()) (hpw : env.preWallet = .ok ())
    (bd : Option (List DomainBalance)) (hbf : env.balancesFetch = .ok bd)
    (hsuff : ¬ (availableOf bd (getChainConfig (sourceChainOf o)).domainId <
      requiredOf (transferValueOf o.amount))) :
    unifiedTransfer env o =
      unifiedTransferTail env (sourceChainOf o) (destChainOf o) (transferValueOf o.amount)
        [.vaultQuery [sourceChainOf o, destChainOf o] "Vault balances (before transfer)",
          .walletLog (sourceChainOf o) (destChainOf o) "Wallet balances (before transfer)",
          .balanceFetch (getChainConfig (sourceChainOf o)).domainId] := by
  obtain ⟨hval1, hval2⟩ := unifiedTransfer_not_validation_error o hchain harc q hq hqpos
  simp only [unifiedTransfer, if_neg hval1, if_neg hval2, hpv, hpw, hbf]
  rw [if_neg hsuff]
  rfl

/-- With an insufficient vault balance the run issues the deposit, then the
balance wait, then (only if both succeeded) continues with the tail. -/
lemma unifiedTransfer_insufficient (env : Env) (o : UnifiedTransferOptions)
    (hchain : o.chainToTransfer ∈ validChains) (harc : o.chainToTransfer ≠ ARC_CHAIN)
    (q : ℚ) (hq : o.amount = .fin q) (hqpos : 0 < q)
    (hpv : env.preVault = .ok ()) (hpw : env.preWallet = .ok ())
    (bd : Option (List DomainBalance)) (hbf : env.balancesFetch = .ok bd)
    (hlt : availableOf bd (getChainConfig (sourceChainOf o)).domainId <
      requiredOf (transferValueOf o.amount)) :
    unifiedTransfer env o =
      (match env.depositResult with
        | .error e =>
          ⟨[.vaultQuery [sourceChainOf o, destChainOf o] "Vault balances (before transfer)",
              .walletLog (sourceChainOf o) (destChainOf o) "Wallet balances (before transfer)",
              .balanceFetch (getChainConfig (sourceChainOf o)).domainId,
              .deposit [sourceChainOf o]
                (jsMathCeil (requiredOf (transferValueOf o.amount) * (10 : ℚ) ^ 6)) false],
            .error (.depositFailed (sourceChainOf o) e)⟩
        | .ok _ =>
          match env.waitResult with
          | .error e =>
            ⟨[.vaultQuery [sourceChainOf o, destChainOf o] "Vault balances (before transfer)",
                .walletLog (sourceChainOf o) (destChainOf o) "Wallet balances (before transfer)",
                .balanceFetch (getChainConfig (sourceChainOf o)).domainId,
                .deposit [sourceChainOf o]
                  (jsMathCeil (requiredOf (transferValueOf o.amount) * (10 : ℚ) ^ 6)) false,
                .waitBalance (sourceChainOf o) (requiredOf (transferValueOf o.amount))
                  30000 1500000],
              .error (.depositFailed (sourceChainOf o) e)⟩
          | .ok _ =>
            unifiedTransferTail env (sourceChainOf o) (destChainOf o)
              (transferValueOf o.amount)
              [.vaultQuery [sourceChainOf o, destChainOf o] "Vault balances (before transfer)",
                .walletLog (sourceChainOf o) (destChainOf o) "Wallet balances (before transfer)",
                .balanceFetch (getChainConfig (sourceChainOf o)).domainId,
                .deposit [sourceChainOf o]
                  (jsMathCeil (requiredOf (transferValueOf o.amount) * (10 : ℚ) ^ 6)) false,
                .waitBalance (sourceChainOf o) (requiredOf (transferValueOf o.amount))
                  30000 1500000]) := by
  obtain ⟨hval1, hval2⟩ := unifiedTransfer_not_validation_error o hchain harc q hq hqpos
  simp only [unifiedTransfer, if_neg hval1, if_neg hval2, hpv, hpw, hbf]
  rw [if_pos hlt]
  rfl

lemma sourceChainOf_mem (o : UnifiedTransferOptions)
    (hchain : o.chainToTransfer ∈ validChains) : sourceChainOf o ∈ validChains := by
  unfold sourceChainOf
  split
  · exact hchain
  · decide

lemma destChainOf_mem (o : UnifiedTransferOptions)
    (hchain : o.chainToTransfer ∈ validChains) : destChainOf o ∈ validChains := by
  unfold destChainOf
  split
  · decide
  · exact hchain

/-- Claim C1: for a valid request (known EVM chain, positive finite amount,
well-formed account) whose source-chain vault balance already covers the
amount plus the fee buffer, with every external call succeeding, the run
issues exactly one burn-intent signature, exactly one attestation request
and exactly one mint submission, at positions 3 < 4 < 5 of the trace —
i.e. in that order. -/
theorem single_burn_attest_mint_in_order (env : Env) (o : UnifiedTransferOptions)
    (hchain : o.chainToTransfer ∈ validChains) (harc : o.chainToTransfer ≠ ARC_CHAIN)
    (q : ℚ) (hq : o.amount = .fin q) (hqpos : 0 < q)
    (hacct : isAddress20 env.account = true)
    (hpv : env.preVault = .ok ()) (hpw : env.preWallet = .ok ())
    (bd : Option (List DomainBalance)) (hbf : env.balancesFetch = .ok bd)
    (hsuff : requiredOf (transferValueOf o.amount) ≤
      availableOf bd (getChainConfig (sourceChainOf o)).domainId)
    (hst : 200 ≤ env.attestStatus ∧ env.attestStatus ≤ 299)
    (a b : String) (ha : env.attestAttestation = some a) (hb : env.attestSignature = some b)
    (h' : String) (hmr : env.mintResult = .ok h')
    (hpoV : env.postVault = .ok ()) (hpoW : env.postWallet = .ok ()) :
    ((unifiedTransfer env o).trace.countP isSignEvent = 1 ∧
      (unifiedTransfer env o).trace.countP isAttestEvent = 1 ∧
      (unifiedTransfer env o).trace.countP isMintEvent = 1) ∧
    (unifiedTransfer env o).trace.get? 3 =
      some (.sign (createBurnIntent (sourceChainOf o) (destChainOf o)
        (transferValueOf o.amount) env.account env.salt none)) ∧
    (unifiedTransfer env o).trace.get? 4 = some .attestFetch ∧
    (unifiedTransfer env o).trace.get? 5 = some (.mint a b) ∧
    (unifiedTransfer env o).outcome = .ok () := by
  obtain ⟨td, htd⟩ := burnIntentTypedData_isSome (sourceChainOf o) (destChainOf o)
    (sourceChainOf_mem o hchain) (destChainOf_mem o hchain)
    (transferValueOf o.amount) env.account env.salt hacct
  have h1 := unifiedTransfer_sufficient env o hchain harc q hq hqpos hpv hpw bd hbf
    (not_lt.mpr hsuff)
  rw [h1, tail_typedData_some env _ _ _ _ td htd,
    attestStep_success_eq env _ _ _ a b hst ha hb,
    mintStep_ok env _ _ _ a b h' hmr,
    postMintSteps_success env _ _ _ hpoV hpoW]
  exact ⟨⟨rfl, rfl, rfl⟩, rfl, rfl, rfl, rfl⟩

/-- Witness for C1: a 1-USDC transfer from baseSepolia with balance 2. -/
theorem single_burn_attest_mint_in_order_witness :
    ((unifiedTransfer exampleEnv ⟨true, "baseSepolia", .fin 1⟩).trace.countP isSignEvent = 1 ∧
      (unifiedTransfer exampleEnv ⟨true, "baseSepolia", .fin 1⟩).trace.countP isAttestEvent = 1 ∧
      (unifiedTransfer exampleEnv ⟨true, "baseSepolia", .fin 1⟩).trace.countP isMintEvent = 1) ∧
    (unifiedTransfer exampleEnv ⟨true, "baseSepolia", .fin 1⟩).trace.get? 3 =
      some (.sign (createBurnIntent (sourceChainOf ⟨true, "baseSepolia", .fin 1⟩)
        (destChainOf ⟨true, "baseSepolia", .fin 1⟩)
        (transferValueOf (JSNum.fin 1)) exampleEnv.account exampleEnv.salt none)) ∧
    (unifiedTransfer exampleEnv ⟨true, "baseSepolia", .fin 1⟩).trace.get? 4 =
      some .attestFetch ∧
    (unifiedTransfer exampleEnv ⟨true, "baseSepolia", .fin 1⟩).trace.get? 5 =
      some (.mint "0xatt" "0xopsig") ∧
    (unifiedTransfer exampleEnv ⟨true, "baseSepolia", .fin 1⟩).outcome = .ok () :=
  single_burn_attest_mint_in_order exampleEnv ⟨true, "baseSepolia", .fin 1⟩
    (by decide) (by decide) 1 rfl one_pos (by decide) rfl rfl
    (some [⟨6, 2⟩]) rfl
    (by
      have h1 : availableOf (some [⟨6, 2⟩])
          (getChainConfig (sourceChainOf ⟨true, "baseSepolia", JSNum.fin 1⟩)).domainId = 2 := rfl
      rw [h1]
      norm_num [requiredOf, amountFormattedOf, transferValueOf, jsMathRound,
        JSNum.toQ, USDC_DECIMALS])
    (by decide) "0xatt" "0xopsig" rfl rfl "0xhash" rfl rfl rfl

lemma sign_intent_of_tail {env : Env} {s d : String} {v : ℤ} {ev : List Event}
    {intent : BurnIntentData} (hev : ∀ i, Event.sign i ∉ ev)
    (h : Event.sign intent ∈ (unifiedTransferTail env s d v ev).trace) :
    intent = createBurnIntent s d v env.account env.salt none := by
  rcases tail_mem env s d v ev _ h with hin | h1 | h2 | ⟨a, b, _, _, h3 | h3 | h3⟩
  · exact absurd hin (hev intent)
  · simpa using h1
  · simp at h2
  · simp at h3
  · simp at h3
  · simp at h3

/-- The intent of any signature event issued by a run is the one built from
the resolved route, the rounded transfer value, the account and the salt. -/
lemma sign_intent_eq (env : Env) (o : UnifiedTransferOptions) (intent : BurnIntentData)
    (h : Event.sign intent ∈ (unifiedTransfer env o).trace) :
    intent = createBurnIntent (sourceChainOf o) (destChainOf o) (transferValueOf o.amount)
      env.account env.salt none := by
  simp only [unifiedTransfer] at h
  split at h
  · simp at h
  · split at h
    · simp at h
    · split at h
      · simp at h
      · split at h
        · simp at h
        · split at h
          · simp at h
          · split at h
            · split at h
              · simp at h
              · split at h
                · simp at h
                · exact sign_intent_of_tail (by intro i; simp) h
            · exact sign_intent_of_tail (by intro i; simp) h

/-- Claim C4: the integer smallest-unit value placed in `TransferSpec.value`
by any signed intent of a run with finite amount `q` equals
`round (q * 10^6)` (round to nearest, half up, the `round` of Mathlib); in
particular amount 1 gives 1000000 and amount 0.5 gives 500000. -/
theorem transfer_spec_value_rounding (env : Env) (o : UnifiedTransferOptions) (q : ℚ)
    (hq : o.amount = .fin q) :
    (∀ intent, Event.sign intent ∈ (unifiedTransfer env o).trace →
      intent.spec.value = round (q * (10 : ℚ) ^ USDC_DECIMALS)) ∧
    transferValueOf (.fin 1) = 1000000 ∧
    transferValueOf (.fin (1 / 2)) = 500000 := by
  refine ⟨?_, ?_, ?_⟩
  · intro intent hmem
    rw [sign_intent_eq env o intent hmem]
    show transferValueOf o.amount = _
    rw [hq]
    show jsMathRound ((JSNum.fin q).toQ * (10 : ℚ) ^ USDC_DECIMALS) = _
    rw [show (JSNum.fin q).toQ = q from rfl, jsMathRound]
    exact (round_eq _).symm
  · norm_num [transferValueOf, jsMathRound, JSNum.toQ, USDC_DECIMALS]
  · norm_num [transferValueOf, jsMathRound, JSNum.toQ, USDC_DECIMALS]

/-- Witness for C4 at amounts 1 and 0.5. -/
theorem transfer_spec_value_rounding_witness :
    transferValueOf (.fin 1) = 1000000 ∧ transferValueOf (.fin (1 / 2)) = 500000 :=
  ⟨(transfer_spec_value_rounding exampleEnv ⟨true, "baseSepolia", .fin 1⟩ 1 rfl).2.1,
    (transfer_spec_value_rounding exampleEnv ⟨true, "baseSepolia", .fin (1 / 2)⟩
      (1 / 2) rfl).2.2⟩

lemma string_data_append (s t : String) : (s ++ t).data = s.data ++ t.data := by
  cases s
  cases t
  rfl

/-- The Gateway API error message template contains the status code and the
response body verbatim. -/
lemma gatewayApi_msg_parts (status : Nat) (body : String) :
    (∃ pre post, (errorMessage (.gatewayApi status body)).data =
      pre ++ (toString status).data ++ post) ∧
    (∃ pre, (errorMessage (.gatewayApi status body)).data = pre ++ body.data) := by
  constructor
  · refine ⟨("Gateway API error: " : String).data, (" " : String).data ++ body.data, ?_⟩
    simp [errorMessage, string_data_append]
  · refine ⟨("Gateway API error: " : String).data ++ (toString status).data ++
      (" " : String).data, ?_⟩
    simp [errorMessage, string_data_append]

lemma attestStep_reject_result (env : Env) (s d : String) (ev : List Event)
    (h : ¬ (200 ≤ env.attestStatus ∧ env.attestStatus ≤ 299) ∨
      env.attestAttestation = none ∨ env.attestSignature = none) :
    (attestStep env s d ev).trace = ev ∧
    (¬ (200 ≤ env.attestStatus ∧ env.attestStatus ≤ 299) →
      (attestStep env s d ev).outcome = .error (.gatewayApi env.attestStatus env.attestBody)) ∧
    ((200 ≤ env.attestStatus ∧ env.attestStatus ≤ 299) →
      (attestStep env s d ev).outcome = .error .missingAttestation) := by
  by_cases hst : 200 ≤ env.attestStatus ∧ env.attestStatus ≤ 299
  · have hmiss : env.attestAttestation = none ∨ env.attestSignature = none := by tauto
    rw [attestStep_missing env s d ev hst hmiss]
    exact ⟨rfl, fun hns => absurd hst hns, fun _ => rfl⟩
  · rw [attestStep_reject_status env s d ev hst]
    exact ⟨rfl, fun _ => rfl, fun hs => absurd hs hst⟩

lemma tail_attest_reject (env : Env) (s d : String) (v : ℤ) (ev : List Event)
    (h : ¬ (200 ≤ env.attestStatus ∧ env.attestStatus ≤ 299) ∨
      env.attestAttestation = none ∨ env.attestSignature = none) :
    ((unifiedTransferTail env s d v ev).trace = ev ∧
      (unifiedTransferTail env s d v ev).outcome = .error .invalidAddress) ∨
    ((unifiedTransferTail env s d v ev).trace =
        ev ++ [.sign (createBurnIntent s d v env.account env.salt none), .attestFetch] ∧
      (¬ (200 ≤ env.attestStatus ∧ env.attestStatus ≤ 299) →
        (unifiedTransferTail env s d v ev).outcome =
          .error (.gatewayApi env.attestStatus env.attestBody)) ∧
      ((200 ≤ env.attestStatus ∧ env.attestStatus ≤ 299) →
        (unifiedTransferTail env s d v ev).outcome = .error .missingAttestation)) := by
  cases htd : burnIntentTypedData (createBurnIntent s d v env.account env.salt none) with
  | none =>
    left
    rw [tail_typedData_none env s d v ev htd]
    exact ⟨rfl, rfl⟩
  | some td =>
    right
    rw [tail_typedData_some env s d v ev td htd]
    exact attestStep_reject_result env s d _ h

/-- Claim C5: a non-2xx attestation response, or a 2xx response missing the
attestation or the operator signature, aborts the run with the
corresponding fatal error before any mint submission; in the non-2xx case
the error message carries the status code and the response body. -/
theorem attestation_failure_no_mint (env : Env) (o : UnifiedTransferOptions)
    (h : ¬ (200 ≤ env.attestStatus ∧ env.attestStatus ≤ 299) ∨
      env.attestAttestation = none ∨ env.attestSignature = none) :
    (∀ a b, Event.mint a b ∉ (unifiedTransfer env o).trace) ∧
    (Event.attestFetch ∈ (unifiedTransfer env o).trace →
      (¬ (200 ≤ env.attestStatus ∧ env.attestStatus ≤ 299) →
        (unifiedTransfer env o).outcome =
          .error (.gatewayApi env.attestStatus env.attestBody) ∧
        (∃ pre post, (errorMessage (.gatewayApi env.attestStatus env.attestBody)).data =
          pre ++ (toString env.attestStatus).data ++ post) ∧
        (∃ pre, (errorMessage (.gatewayApi env.attestStatus env.attestBody)).data =
          pre ++ env.attestBody.data)) ∧
      ((200 ≤ env.attestStatus ∧ env.attestStatus ≤ 299) →
        (unifiedTransfer env o).outcome = .error .missingAttestation)) := by
  have hmsg := gatewayApi_msg_parts env.attestStatus env.attestBody
  have htail : ∀ s d v (ev : List Event), (∀ a b, Event.mint a b ∉ ev) →
      Event.attestFetch ∉ ev →
      (∀ a b, Event.mint a b ∉ (unifiedTransferTail env s d v ev).trace) ∧
      (Event.attestFetch ∈ (unifiedTransferTail env s d v ev).trace →
        (¬ (200 ≤ env.attestStatus ∧ env.attestStatus ≤ 299) →
          (unifiedTransferTail env s d v ev).outcome =
            .error (.gatewayApi env.attestStatus env.attestBody) ∧
          (∃ pre post, (errorMessage (.gatewayApi env.attestStatus env.attestBody)).data =
            pre ++ (toString env.attestStatus).data ++ post) ∧
          (∃ pre, (errorMessage (.gatewayApi env.attestStatus env.attestBody)).data =
            pre ++ env.attestBody.data)) ∧
        ((200 ≤ env.attestStatus ∧ env.attestStatus ≤ 299) →
          (unifiedTransferTail env s d v ev).outcome = .error .missingAttestation)) := by
    intro s d v ev hmint hattf
    rcases tail_attest_reject env s d v ev h with ⟨ht, ho⟩ | ⟨ht, h1, h2⟩
    · rw [ht]
      exact ⟨hmint, fun hm => absurd hm hattf⟩
    · rw [ht]
      refine ⟨?_, fun _ => ⟨fun hns => ⟨h1 hns, hmsg.1, hmsg.2⟩, h2⟩⟩
      intro a b hm
      rcases List.mem_append.mp hm with hm | hm
      · exact hmint a b hm
      · simp at hm
  simp only [unifiedTransfer]
  split
  · exact ⟨by simp, by simp⟩
  · split
    · exact ⟨by simp, by simp⟩
    · split
      · exact ⟨by simp, by simp⟩
      · split
        · exact ⟨by simp, by simp⟩
        · split
          · exact ⟨by simp, by simp⟩
          · split
            · split
              · exact ⟨by simp, by simp⟩
              · split
                · exact ⟨by simp, by simp⟩
                · exact htail _ _ _ _ (by intro a b; simp) (by simp)
            · exact htail _ _ _ _ (by intro a b; simp) (by simp)

/-- The successful environment with a 400 attestation response. -/
def exampleEnvAttestFail : Env :=
  { exampleEnv with attestStatus := 400, attestBody := "bad request" }

/-- Witness for C5: a 400 from the transfer endpoint. -/
theorem attestation_failure_no_mint_witness :
    Event.mint "0xatt" "0xopsig" ∉
      (unifiedTransfer exampleEnvAttestFail ⟨true, "baseSepolia", .fin 1⟩).trace ∧
    (unifiedTransfer exampleEnvAttestFail ⟨true, "baseSepolia", .fin 1⟩).outcome =
      .error (.gatewayApi 400 "bad request") := by
  have h := attestation_failure_no_mint exampleEnvAttestFail ⟨true, "baseSepolia", .fin 1⟩
    (Or.inl (by decide))
  refine ⟨h.1 "0xatt" "0xopsig", ?_⟩
  obtain ⟨td, htd⟩ := burnIntentTypedData_isSome "baseSepolia" "arcTestnet"
    (by decide) (by decide) (transferValueOf (JSNum.fin 1)) exampleAccount exampleSalt
    (by decide)
  have hne := unifiedTransfer_sufficient exampleEnvAttestFail ⟨true, "baseSepolia", .fin 1⟩
    (by decide) (by decide) 1 rfl one_pos rfl rfl (some [⟨6, 2⟩]) rfl
    (by
      have h1 : availableOf (some [⟨6, 2⟩])
          (getChainConfig (sourceChainOf ⟨true, "baseSepolia", JSNum.fin 1⟩)).domainId = 2 := rfl
      rw [h1]
      norm_num [requiredOf, amountFormattedOf, transferValueOf, jsMathRound,
        JSNum.toQ, USDC_DECIMALS])
  have hmem : Event.attestFetch ∈
      (unifiedTransfer exampleEnvAttestFail ⟨true, "baseSepolia", .fin 1⟩).trace := by
    rw [hne, tail_typedData_some _ _ _ _ _ td htd,
      attestStep_reject_status _ _ _ _ (by decide)]
    simp
  exact ((h.2 hmem).1 (by decide)).1

lemma string_append_assoc (a b c : String) : a ++ b ++ c = a ++ (b ++ c) := by
  cases a with
  | mk x =>
    cases b with
    | mk y =>
      cases c with
      | mk z => exact congrArg String.mk (List.append_assoc x y z)

/-- The distinguished gas-failure message states that the burn/attestation
already succeeded. -/
lemma gas_msg_part (d : String) :
    ∃ pre post : String, errorMessage (.insufficientNativeGas d) =
      pre ++ "burn/attestation succeeded" ++ post := by
  refine ⟨"Insufficient native token on " ++ d ++ " to pay for gas. Your ",
    "; you need a small amount of testnet native token on the destination chain to complete the mint.",
    ?_⟩
  show errorMessage (.insufficientNativeGas d) = _
  simp only [errorMessage, string_append_assoc]
  congr 1

lemma attestStep_mint_fail_outcome (env : Env) (s d : String) (ev : List Event)
    (e : JsError) (hm : env.mintResult = .error e)
    (hnm : ∀ a b, Event.mint a b ∉ ev) (a b : String)
    (hx : Event.mint a b ∈ (attestStep env s d ev).trace) :
    (attestStep env s d ev).outcome = mintCatch d e := by
  by_cases hst : 200 ≤ env.attestStatus ∧ env.attestStatus ≤ 299
  · rcases hA : env.attestAttestation with _ | att
    · rw [attestStep_missing env s d ev hst (Or.inl hA)] at hx ⊢
      exact absurd hx (hnm a b)
    · rcases hS : env.attestSignature with _ | opSig
      · rw [attestStep_missing env s d ev hst (Or.inr hS)] at hx ⊢
        exact absurd hx (hnm a b)
      · rw [attestStep_success_eq env s d ev att opSig hst hA hS,
          mintStep_fail env s d ev att opSig e hm]
  · rw [attestStep_reject_status env s d ev hst] at hx ⊢
    exact absurd hx (hnm a b)

lemma tail_mint_fail (env : Env) (s d : String) (v : ℤ) (ev : List Event)
    (e : JsError) (hm : env.mintResult = .error e)
    (hnm : ∀ a b, Event.mint a b ∉ ev) (a b : String)
    (hx : Event.mint a b ∈ (unifiedTransferTail env s d v ev).trace) :
    (unifiedTransferTail env s d v ev).outcome = mintCatch d e := by
  cases htd : burnIntentTypedData (createBurnIntent s d v env.account env.salt none) with
  | none =>
    rw [tail_typedData_none env s d v ev htd] at hx ⊢
    exact absurd hx (hnm a b)
  | some td =>
    rw [tail_typedData_some env s d v ev td htd] at hx ⊢
    refine attestStep_mint_fail_outcome env s d _ e hm ?_ a b hx
    intro a' b'
    simp only [List.mem_append]
    rintro (h | h)
    · exact hnm a' b' h
    · simp at h

/-- Whenever a mint was submitted and the mint result is an error, the
outcome of the run is that error passed through the mint `catch`. -/
lemma run_mint_fail (env : Env) (o : UnifiedTransferOptions) (e : JsError)
    (hm : env.mintResult = .error e) :
    ∀ a b, Event.mint a b ∈ (unifiedTransfer env o).trace →
      (unifiedTransfer env o).outcome = mintCatch (destChainOf o) e := by
  simp only [unifiedTransfer]
  split
  · intro a b hb
    simp at hb
  · split
    · intro a b hb
      simp at hb
    · split
      · intro a b hb
        simp at hb
      · split
        · intro a b hb
          simp at hb
        · split
          · intro a b hb
            simp at hb
          · split
            · split
              · intro a b hb
                simp at hb
              · split
                · intro a b hb
                  simp at hb
                · intro a b hb
                  exact tail_mint_fail env _ _ _ _ e hm (by intro a' b'; simp) a b hb
            · intro a b hb
              exact tail_mint_fail env _ _ _ _ e hm (by intro a' b'; simp) a b hb

/-- Claim C6: an `INSUFFICIENT_FUNDS` failure of the mint step surfaces the
distinguished insufficient-native-gas error, whose message states that the
burn/attestation already succeeded and whose constructor differs from every
passed-through error; any other mint failure is rethrown unchanged (as
`TError.js e`), without the distinguished classification. -/
theorem mint_gas_failure_distinguished (env : Env) (o : UnifiedTransferOptions)
    (e : JsError) (hm : env.mintResult = .error e) :
    (e.code = some "INSUFFICIENT_FUNDS" →
      ∀ a b, Event.mint a b ∈ (unifiedTransfer env o).trace →
        (unifiedTransfer env o).outcome =
          .error (.insufficientNativeGas (destChainOf o))) ∧
    (e.code ≠ some "INSUFFICIENT_FUNDS" →
      ∀ a b, Event.mint a b ∈ (unifiedTransfer env o).trace →
        (unifiedTransfer env o).outcome = .error (.js e)) ∧
    (∀ d e', TError.insufficientNativeGas d ≠ TError.js e') ∧
    (∃ pre post : String, errorMessage (.insufficientNativeGas (destChainOf o)) =
      pre ++ "burn/attestation succeeded" ++ post) := by
  refine ⟨?_, ?_, ?_, gas_msg_part (destChainOf o)⟩
  case refine_3 =>
    intro d e'
    simp
  · intro hc a b hmem
    rw [run_mint_fail env o e hm a b hmem]
    unfold mintCatch
    rw [if_pos hc]
  · intro hc a b hmem
    rw [run_mint_fail env o e hm a b hmem]
    unfold mintCatch
    rw [if_neg hc]

/-- The successful environment with an `INSUFFICIENT_FUNDS` mint failure. -/
def exampleEnvGasFail : Env :=
  { exampleEnv with
    mintResult := .error ⟨some "INSUFFICIENT_FUNDS", "insufficient funds for gas"⟩ }

/-- Witness for C6: an INSUFFICIENT_FUNDS mint failure is reported as the
distinguished insufficient-native-gas error on the destination chain. -/
theorem mint_gas_failure_distinguished_witness :
    (unifiedTransfer exampleEnvGasFail ⟨true, "baseSepolia", .fin 1⟩).outcome =
      .error (.insufficientNativeGas "arcTestnet") := by
  have h := mint_gas_failure_distinguished exampleEnvGasFail ⟨true, "baseSepolia", .fin 1⟩
    ⟨some "INSUFFICIENT_FUNDS", "insufficient funds for gas"⟩ rfl
  obtain ⟨td, htd⟩ := burnIntentTypedData_isSome "baseSepolia" "arcTestnet"
    (by decide) (by decide) (transferValueOf (JSNum.fin 1)) exampleAccount exampleSalt
    (by decide)
  have hne := unifiedTransfer_sufficient exampleEnvGasFail ⟨true, "baseSepolia", .fin 1⟩
    (by decide) (by decide) 1 rfl one_pos rfl rfl (some [⟨6, 2⟩]) rfl
    (by
      have h1 : availableOf (some [⟨6, 2⟩])
          (getChainConfig (sourceChainOf ⟨true, "baseSepolia", JSNum.fin 1⟩)).domainId = 2 := rfl
      rw [h1]
      norm_num [requiredOf, amountFormattedOf, transferValueOf, jsMathRound,
        JSNum.toQ, USDC_DECIMALS])
  have hmem : Event.mint "0xatt" "0xopsig" ∈
      (unifiedTransfer exampleEnvGasFail ⟨true, "baseSepolia", .fin 1⟩).trace := by
    rw [hne, tail_typedData_some _ _ _ _ _ td htd,
      attestStep_success_eq _ _ _ _ "0xatt" "0xopsig" (by decide) rfl rfl,
      mintStep_fail _ _ _ _ "0xatt" "0xopsig" _ rfl]
    simp
  exact h.1 rfl "0xatt" "0xopsig" hmem

lemma postMintSteps_trace_append (env : Env) (s d : String) (ev : List Event) :
    ∃ suf, (postMintSteps env s d ev).trace = ev ++ suf := by
  unfold postMintSteps
  split
  · exact ⟨_, rfl⟩
  · split
    · exact ⟨[.vaultQuery [s, d] "Vault balances (after transfer)",
        .walletLog s d "Wallet balances (after transfer)"], by simp⟩
    · exact ⟨[.vaultQuery [s, d] "Vault balances (after transfer)",
        .walletLog s d "Wallet balances (after transfer)"], by simp⟩

lemma mintStep_trace_append (env : Env) (s d : String) (ev : List Event) (a b : String) :
    ∃ suf, (mintStep env s d ev a b).trace = ev ++ suf := by
  unfold mintStep
  split
  · exact ⟨_, rfl⟩
  · obtain ⟨suf, hsuf⟩ := postMintSteps_trace_append env s d (ev ++ [.mint a b])
    exact ⟨_, by rw [hsuf, List.append_assoc]⟩

lemma attestStep_trace_append (env : Env) (s d : String) (ev : List Event) :
    ∃ suf, (attestStep env s d ev).trace = ev ++ suf := by
  unfold attestStep
  split
  · split
    · next _o1 _o2 att opSig _ha _hb => exact mintStep_trace_append env s d ev att opSig
    · exact ⟨[], by simp⟩
  · exact ⟨[], by simp⟩

lemma tail_trace_append (env : Env) (s d : String) (v : ℤ) (ev : List Event) :
    ∃ suf, (unifiedTransferTail env s d v ev).trace = ev ++ suf := by
  cases htd : burnIntentTypedData (createBurnIntent s d v env.account env.salt none) with
  | none => exact ⟨[], by rw [tail_typedData_none env s d v ev htd]; simp⟩
  | some td =>
    rw [tail_typedData_some env s d v ev td htd]
    obtain ⟨suf, hsuf⟩ := attestStep_trace_append env s d
      (ev ++ [.sign (createBurnIntent s d v env.account env.salt none), .attestFetch])
    exact ⟨_, by rw [hsuf, List.append_assoc]⟩

/-- Claim C3: with `required = amount + 0.01`, when the observed source-vault
balance is below `required` the run deposits `ceil(required·10^6)` smallest
units on the source chain and then waits for that same threshold, both
before any burn intent is built; a failure of either step aborts with a
deposit error and no mint; when the balance is at least `required`, no
deposit and no balance wait ever appears in the trace. -/
theorem deposit_recovery_path (env : Env) (o : UnifiedTransferOptions)
    (hchain : o.chainToTransfer ∈ validChains) (harc : o.chainToTransfer ≠ ARC_CHAIN)
    (q : ℚ) (hq : o.amount = .fin q) (hqpos : 0 < q)
    (hpv : env.preVault = .ok ()) (hpw : env.preWallet = .ok ())
    (bd : Option (List DomainBalance)) (hbf : env.balancesFetch = .ok bd) :
    (availableOf bd (getChainConfig (sourceChainOf o)).domainId <
        requiredOf (transferValueOf o.amount) →
      (∀ e, env.depositResult = .error e →
        unifiedTransfer env o =
          ⟨[.vaultQuery [sourceChainOf o, destChainOf o] "Vault balances (before transfer)",
              .walletLog (sourceChainOf o) (destChainOf o) "Wallet balances (before transfer)",
              .balanceFetch (getChainConfig (sourceChainOf o)).domainId,
              .deposit [sourceChainOf o]
                (jsMathCeil (requiredOf (transferValueOf o.amount) * (10 : ℚ) ^ 6)) false],
            .error (.depositFailed (sourceChainOf o) e)⟩ ∧
          ∀ a b, Event.mint a b ∉ (unifiedTransfer env o).trace) ∧
      (∀ e, env.depositResult = .ok () → env.waitResult = .error e →
        unifiedTransfer env o =
          ⟨[.vaultQuery [sourceChainOf o, destChainOf o] "Vault balances (before transfer)",
              .walletLog (sourceChainOf o) (destChainOf o) "Wallet balances (before transfer)",
              .balanceFetch (getChainConfig (sourceChainOf o)).domainId,
              .deposit [sourceChainOf o]
                (jsMathCeil (requiredOf (transferValueOf o.amount) * (10 : ℚ) ^ 6)) false,
              .waitBalance (sourceChainOf o) (requiredOf (transferValueOf o.amount))
                30000 1500000],
            .error (.depositFailed (sourceChainOf o) e)⟩ ∧
          ∀ a b, Event.mint a b ∉ (unifiedTransfer env o).trace) ∧
      (env.depositResult = .ok () → env.waitResult = .ok () →
        ∃ rest, (unifiedTransfer env o).trace =
          [.vaultQuery [sourceChainOf o, destChainOf o] "Vault balances (before transfer)",
            .walletLog (sourceChainOf o) (destChainOf o) "Wallet balances (before transfer)",
            .balanceFetch (getChainConfig (sourceChainOf o)).domainId,
            .deposit [sourceChainOf o]
              (jsMathCeil (requiredOf (transferValueOf o.amount) * (10 : ℚ) ^ 6)) false,
            .waitBalance (sourceChainOf o) (requiredOf (transferValueOf o.amount))
              30000 1500000] ++ rest)) ∧
    (¬ (availableOf bd (getChainConfig (sourceChainOf o)).domainId <
        requiredOf (transferValueOf o.amount)) →
      (∀ cs amt sil, Event.deposit cs amt sil ∉ (unifiedTransfer env o).trace) ∧
      (∀ c r p t, Event.waitBalance c r p t ∉ (unifiedTransfer env o).trace)) := by
  constructor
  · intro hlt
    have hins := unifiedTransfer_insufficient env o hchain harc q hq hqpos hpv hpw bd hbf hlt
    refine ⟨?_, ?_, ?_⟩
    · intro e he
      rw [hins, he]
      exact ⟨rfl, by intro a b; simp⟩
    · intro e hd he
      rw [hins, hd, he]
      exact ⟨rfl, by intro a b; simp⟩
    · intro hd hw
      rw [hins, hd, hw]
      exact tail_trace_append env _ _ _ _
  · intro hge
    have hs := unifiedTransfer_sufficient env o hchain harc q hq hqpos hpv hpw bd hbf hge
    rw [hs]
    constructor
    · intro cs amt sil hmem
      rcases tail_mem env _ _ _ _ _ hmem with hin | h | h | ⟨a, b, _, _, h | h | h⟩ <;>
        simp_all
    · intro c r p t hmem
      rcases tail_mem env _ _ _ _ _ hmem with hin | h | h | ⟨a, b, _, _, h | h | h⟩ <;>
        simp_all

/-- The successful environment with a source vault balance of only 0.5. -/
def exampleEnvLowBalance : Env :=
  { exampleEnv with balancesFetch := .ok (some [⟨6, 1 / 2⟩]) }

/-- Witness for C3: balance 0.5 < required 1.01 triggers deposit of
1010000 smallest units, then the wait with the same threshold, in
positions 3 and 4 (before the burn intent at position 5). -/
theorem deposit_recovery_path_witness :
    (unifiedTransfer exampleEnvLowBalance ⟨true, "baseSepolia", .fin 1⟩).trace.get? 3 =
      some (.deposit ["baseSepolia"]
        (jsMathCeil (requiredOf (transferValueOf (.fin 1)) * (10 : ℚ) ^ 6)) false) ∧
    (unifiedTransfer exampleEnvLowBalance ⟨true, "baseSepolia", .fin 1⟩).trace.get? 4 =
      some (.waitBalance "baseSepolia" (requiredOf (transferValueOf (.fin 1))) 30000 1500000) ∧
    jsMathCeil (requiredOf (transferValueOf (.fin 1)) * (10 : ℚ) ^ 6) = 1010000 ∧
    requiredOf (transferValueOf (.fin 1)) = 101 / 100 := by
  have h := deposit_recovery_path exampleEnvLowBalance ⟨true, "baseSepolia", .fin 1⟩
    (by decide) (by decide) 1 rfl one_pos rfl rfl (some [⟨6, 1 / 2⟩]) rfl
  have hlt : availableOf (some [⟨6, 1 / 2⟩])
      (getChainConfig (sourceChainOf ⟨true, "baseSepolia", JSNum.fin 1⟩)).domainId <
      requiredOf (transferValueOf (JSNum.fin 1)) := by
    have h1 : availableOf (some [⟨6, 1 / 2⟩])
        (getChainConfig (sourceChainOf ⟨true, "baseSepolia", JSNum.fin 1⟩)).domainId =
        1 / 2 := rfl
    rw [h1]
    norm_num [requiredOf, amountFormattedOf, transferValueOf, jsMathRound,
      JSNum.toQ, USDC_DECIMALS]
  obtain ⟨rest, hrest⟩ := (h.1 hlt).2.2 rfl rfl
  refine ⟨?_, ?_, ?_, ?_⟩
  · rw [hrest]
    rfl
  · rw [hrest]
    rfl
  · norm_num [jsMathCeil, requiredOf, amountFormattedOf, transferValueOf,
      jsMathRound, JSNum.toQ, USDC_DECIMALS]
  · norm_num [requiredOf, amountFormattedOf, transferValueOf, jsMathRound,
      JSNum.toQ, USDC_DECIMALS]

/-! ### The balance waiter: first-success and timeout behaviour -/

lemma waitLoop_success (resps : Nat → VaultResp) (chain : String) (required : ℚ)
    (pollMs timeoutMs : Nat) (bal : Nat → ℚ)
    (hobs : ∀ k, observeBalance chain (resps k) = .ok (bal k))
    (j : Nat) (hj : required ≤ bal j) (hmin : ∀ i < j, bal i < required)
    (hwin : ∀ i < j, i * pollMs < timeoutMs) :
    ∀ fuel k, k ≤ j → j - k ≤ fuel →
      waitLoop resps chain required pollMs timeoutMs fuel k = .ok j := by
  intro fuel
  induction fuel with
  | zero =>
    intro k hk hfuel
    have hkj : k = j := by omega
    subst hkj
    simp only [waitLoop, hobs k, if_pos hj]
  | succ fuel ih =>
    intro k hk hfuel
    by_cases hkj : k = j
    · subst hkj
      simp only [waitLoop, hobs k, if_pos hj]
    · have hk' : k < j := lt_of_le_of_ne hk hkj
      simp only [waitLoop, hobs k]
      rw [if_neg (not_le.mpr (hmin k hk')), if_neg (not_le.mpr (hwin k hk'))]
      exact ih (k + 1) (by omega) (by omega)

lemma waitLoop_timeout (resps : Nat → VaultResp) (chain : String) (required : ℚ)
    (pollMs timeoutMs : Nat) (bal : Nat → ℚ)
    (hobs : ∀ k, observeBalance chain (resps k) = .ok (bal k))
    (K : Nat) (hK : timeoutMs ≤ K * pollMs) (hKmin : ∀ i < K, i * pollMs < timeoutMs)
    (hbal : ∀ i ≤ K, bal i < required) :
    ∀ fuel k, k ≤ K → K - k ≤ fuel →
      waitLoop resps chain required pollMs timeoutMs fuel k =
        .error (.timeout (bal K) (K * pollMs)) := by
  intro fuel
  induction fuel with
  | zero =>
    intro k hk hfuel
    have hkK : k = K := by omega
    subst hkK
    simp only [waitLoop, hobs k]
    rw [if_neg (not_le.mpr (hbal k le_rfl))]
  | succ fuel ih =>
    intro k hk hfuel
    by_cases hkK : k = K
    · subst hkK
      simp only [waitLoop, hobs k]
      rw [if_neg (not_le.mpr (hbal k le_rfl)), if_pos hK]
    · have hk' : k < K := lt_of_le_of_ne hk hkK
      simp only [waitLoop, hobs k]
      rw [if_neg (not_le.mpr (hbal k hk'.le)), if_neg (not_le.mpr (hKmin k hk'))]
      exact ih (k + 1) (by omega) (by omega)

/-- Claim C7: the waiter returns on the first poll whose observed balance
reaches the threshold (polls happening at multiples of the poll interval
within the timeout window), and if the threshold is never met up to the
first poll at or past the timeout, it throws the timeout error carrying the
balance observed at that last poll. -/
theorem waiter_first_success_or_timeout (resps : Nat → VaultResp) (chain : String)
    (required : ℚ) (pollMs timeoutMs : Nat) (bal : Nat → ℚ)
    (hpoll : 0 < pollMs)
    (hobs : ∀ k, observeBalance chain (resps k) = .ok (bal k)) :
    (∀ j, required ≤ bal j → (∀ i < j, bal i < required) →
      (∀ i < j, i * pollMs < timeoutMs) →
      waitForGatewayBalance resps chain required pollMs timeoutMs = .ok j) ∧
    (∀ K, timeoutMs ≤ K * pollMs → (∀ i < K, i * pollMs < timeoutMs) →
      (∀ i ≤ K, bal i < required) →
      waitForGatewayBalance resps chain required pollMs timeoutMs =
        .error (.timeout (bal K) (K * pollMs))) := by
  constructor
  · intro j hj hmin hwin
    have hjle : j ≤ timeoutMs / pollMs + 1 := by
      rcases Nat.eq_zero_or_pos j with rfl | hjpos
      · exact Nat.zero_le _
      · have h1 : (j - 1) * pollMs < timeoutMs := hwin (j - 1) (by omega)
        have h2 : j - 1 ≤ timeoutMs / pollMs :=
          (Nat.le_div_iff_mul_le hpoll).mpr h1.le
        omega
    exact waitLoop_success resps chain required pollMs timeoutMs bal hobs j hj hmin hwin
      (timeoutMs / pollMs + 1) 0 (by omega) (by omega)
  · intro K hK hKmin hbal
    have hKle : K ≤ timeoutMs / pollMs + 1 := by
      rcases Nat.eq_zero_or_pos K with rfl | hKpos
      · exact Nat.zero_le _
      · have h1 : (K - 1) * pollMs < timeoutMs := hKmin (K - 1) (by omega)
        have h2 : K - 1 ≤ timeoutMs / pollMs :=
          (Nat.le_div_iff_mul_le hpoll).mpr h1.le
        omega
    exact waitLoop_timeout resps chain required pollMs timeoutMs bal hobs K hK hKmin hbal
      (timeoutMs / pollMs + 1) 0 (by omega) (by omega)

/-- The example polling sequence of the spec: 0.5 on the first poll, then
1.02 from the second poll on, against threshold 1.01. -/
def exampleWaitResps : Nat → VaultResp := fun k =>
  if k = 0 then ⟨200, some [⟨6, some (1 / 2)⟩]⟩ else ⟨200, some [⟨6, some (51 / 50)⟩]⟩

/-- Witness for C7: threshold 1.01, observed 0.5 then 1.02, default
interval and timeout — the waiter returns on poll 1 (the 1.02 poll). -/
theorem waiter_first_success_or_timeout_witness :
    waitForGatewayBalance exampleWaitResps "baseSepolia" (101 / 100) 30000 1500000 =
      .ok 1 := by
  have h := waiter_first_success_or_timeout exampleWaitResps "baseSepolia" (101 / 100)
    30000 1500000 (fun k => if k = 0 then 1 / 2 else 51 / 50) (by norm_num)
    (by
      intro k
      cases k with
      | zero => rfl
      | succ n => rfl)
  refine h.1 1 (by norm_num) ?_ ?_
  · intro i hi
    have hi0 : i = 0 := by omega
    subst hi0
    norm_num
  · intro i hi
    have hi0 : i = 0 := by omega
    subst hi0
    norm_num

/-- A synthetic `"Domain N"` label never collides with a registry chain key. -/
lemma domain_label_ne_validChain {chain : String} (hchain : chain ∈ validChains)
    (n : Nat) : ("Domain " ++ toString n) ≠ chain := by
  intro hEq
  have hhead : ("Domain " ++ toString n).data.head? = some 'D' := by
    rw [string_data_append]
    rfl
  rw [hEq] at hhead
  have hv : validChains = ["sepolia", "baseSepolia", "avalancheFuji", "arcTestnet",
      "hyperliquidEvmTestnet", "seiTestnet", "sonicTestnet", "worldchainSepolia"] := rfl
  rw [hv] at hchain
  simp only [List.mem_cons, List.not_mem_nil, or_false] at hchain
  rcases hchain with rfl | rfl | rfl | rfl | rfl | rfl | rfl | rfl <;>
    exact absurd hhead (by decide)

/-- When the response carries no entry for the domain of the requested chain,
the produced entries contain nothing labelled with that chain. -/
lemma getVaultBalancesEntries_no_chain (chain : String) (hchain : chain ∈ validChains)
    (resp : VaultResp) (hok : 200 ≤ resp.status ∧ resp.status ≤ 299)
    (l : List RawBalance) (hb : resp.balances = some l)
    (hnd : ∀ b ∈ l, b.domain ≠ (getChainConfig chain).domainId) :
    ∃ entries, getVaultBalancesEntries [chain] resp = .ok entries ∧
      entries.find? (fun e => e.chain == chain) = none := by
  unfold getVaultBalancesEntries
  rw [if_pos hok, hb]
  refine ⟨_, rfl, ?_⟩
  rw [List.find?_eq_none]
  intro e he
  simp only [List.mem_map] at he
  obtain ⟨b, hbmem, rfl⟩ := he
  simp only [beq_iff_eq]
  have hne : ((getChainConfig chain).domainId == b.domain) = false := by
    simp only [beq_eq_false_iff_ne, ne_eq]
    exact fun hdz => (hnd b hbmem) hdz.symm
  have hlookup : domainToChainLookup
      (List.map (fun key => (key, (getChainConfig key).domainId)) [chain]) b.domain =
      none := by
    simp [domainToChainLookup, List.find?, hne]
  show ¬ ((domainToChainLookup _ b.domain).getD ("Domain " ++ toString b.domain) = chain)
  rw [hlookup, Option.getD_none]
  exact domain_label_ne_validChain hchain b.domain

/-- A single poll against a response with no entry for the chain observes 0. -/
lemma observe_missing (chain : String) (hchain : chain ∈ validChains)
    (resp : VaultResp) (hok : 200 ≤ resp.status ∧ resp.status ≤ 299)
    (l : List RawBalance) (hb : resp.balances = some l)
    (hnd : ∀ b ∈ l, b.domain ≠ (getChainConfig chain).domainId) :
    observeBalance chain resp = .ok 0 := by
  obtain ⟨entries, he, hfind⟩ :=
    getVaultBalancesEntries_no_chain chain hchain resp hok l hb hnd
  unfold observeBalance
  rw [he]
  simp [Except.map, hfind]

/-- Claim C10: when every balance response is well-formed (2xx, an array)
but contains no entry for the domain of the requested chain, each poll observes
balance 0 — no missing-data error is raised — and the waiter keeps polling
until it fails with the generic timeout error reporting last balance 0. -/
theorem waiter_missing_entry_times_out (resps : Nat → VaultResp) (chain : String)
    (required : ℚ) (pollMs timeoutMs : Nat)
    (hchain : chain ∈ validChains) (hpoll : 0 < pollMs) (hreq : 0 < required)
    (hresps : ∀ k, 200 ≤ (resps k).status ∧ (resps k).status ≤ 299 ∧
      ∃ l, (resps k).balances = some l ∧
        ∀ b ∈ l, b.domain ≠ (getChainConfig chain).domainId) :
    (∀ k, observeBalance chain (resps k) = .ok 0) ∧
    ∀ K, timeoutMs ≤ K * pollMs → (∀ i < K, i * pollMs < timeoutMs) →
      waitForGatewayBalance resps chain required pollMs timeoutMs =
        .error (.timeout 0 (K * pollMs)) := by
  have hobs : ∀ k, observeBalance chain (resps k) = .ok 0 := by
    intro k
    obtain ⟨hok1, hok2, l, hb, hnd⟩ := hresps k
    exact observe_missing chain hchain (resps k) ⟨hok1, hok2⟩ l hb hnd
  refine ⟨hobs, fun K hK hKmin => ?_⟩
  have hKle : K ≤ timeoutMs / pollMs + 1 := by
    rcases Nat.eq_zero_or_pos K with rfl | hKpos
    · exact Nat.zero_le _
    · have h1 : (K - 1) * pollMs < timeoutMs := hKmin (K - 1) (by omega)
      have h2 : K - 1 ≤ timeoutMs / pollMs := (Nat.le_div_iff_mul_le hpoll).mpr h1.le
      omega
  exact waitLoop_timeout resps chain required pollMs timeoutMs (fun _ => 0) hobs K hK
    hKmin (fun i _ => hreq) (timeoutMs / pollMs + 1) 0 (Nat.zero_le _) (by omega)

/-- Witness for C10: responses always carry an empty balances array; with
threshold 1, 30s interval and 60s timeout the waiter times out at the
third poll (elapsed 60000 ms) reporting last observed balance 0. -/
theorem waiter_missing_entry_times_out_witness :
    waitForGatewayBalance (fun _ => ⟨200, some []⟩) "baseSepolia" 1 30000 60000 =
      .error (.timeout 0 60000) := by
  have h := waiter_missing_entry_times_out (fun _ => ⟨200, some []⟩) "baseSepolia" 1
    30000 60000 (by decide) (by norm_num) one_pos
    (fun k => ⟨by norm_num, by norm_num, [], rfl, by simp⟩)
  have h2 := h.2 2 (by norm_num) (by intro i hi; interval_cases i <;> norm_num)
  exact h2

end Augurx
